import Mathlib

/-!
Verification development for the `clone-ami-to-region` library: a shallow
embedding of `lib/configValidator.js`, `lib/imageCloner.js`, `lib/ec2.js` and
`lib/constants.js`, together with theorems settling the specification's
claims about the cloning orchestration.

Asynchronous callback code is embedded as explicit state passing: each
remote call's outcome is supplied by an environment record, and the order in
which the concurrent per-region worker callbacks fire is an explicit
completion schedule (a list of worker indices). JavaScript `undefined` is
modelled with `Option`, JavaScript `Error` values with the `JsError`
inductive, and truthiness of strings with inequality against the empty
string.
-/

namespace CloneAmi

/-- A JavaScript `Error` value: either the aggregate validation error built by
`cloneImage` from `JSON.stringify(errors)` (carrying every violation), or an
error identified by its message string. -/
inductive JsError
  | validationErrors (errors : List String)
  | message (s : String)
deriving DecidableEq

/-- Decidable equality for `Except` results, used to evaluate concrete
runs. -/
instance {ε α : Type} [DecidableEq ε] [DecidableEq α] : DecidableEq (Except ε α)
  | .error a, .error b =>
    if h : a = b then .isTrue (by rw [h])
    else .isFalse (fun hc => h (by injection hc))
  | .error _, .ok _ => .isFalse (fun hc => Except.noConfusion hc)
  | .ok _, .error _ => .isFalse (fun hc => Except.noConfusion hc)
  | .ok a, .ok b =>
    if h : a = b then .isTrue (by rw [h])
    else .isFalse (fun hc => h (by injection hc))

/-- A tag `{Key, Value}` as used by the EC2 API. -/
structure Tag where
  Key : String
  Value : String
deriving DecidableEq

/-- A launch-permission grant `{UserId, Group}`. -/
structure LaunchPermission where
  UserId : Option String := none
  Group : Option String := none
deriving DecidableEq

/-- Image data as returned by `describeImages`: the fields read by the
cloner. `State` is the lifecycle state string ("pending", "available", ...);
the empty string models an absent/empty (falsy) state. -/
structure Image where
  ImageId : String
  Name : String
  Description : String
  State : String := ""
  Tags : List Tag := []
deriving DecidableEq

/-- The caller-supplied configuration object. Fields are `Option`-valued
because the caller may omit them (`undefined`); `extraProperties` lists the
names of any properties outside the schema (the schema sets
`additionalProperties: false`). -/
structure Config where
  sourceImageId : Option String := none
  sourceRegion : Option String := none
  destinationRegions : Option (List String) := none
  progressCheckIntervalInSeconds : Option Int := none
  clientOptions : Option Unit := none
  extraProperties : List String := []
deriving DecidableEq

namespace ConfigValidator

/-- `ConfigValidator.prototype.validate`: check the configuration against the
JSON schema of `lib/configValidator.js` and return the list of violations
(empty means valid). The checks mirror the schema: `sourceImageId` and
`sourceRegion` required non-empty strings, `destinationRegions` a required
array of non-empty strings with at least one item,
`progressCheckIntervalInSeconds` a required number at least 0,
`clientOptions` optional, and no additional properties. -/
def validate (c : Config) : List String :=
  (match c.sourceImageId with
   | none => ["instance requires property sourceImageId"]
   | some s => if s.length < 1 then ["instance.sourceImageId does not meet minimum length of 1"] else []) ++
  (match c.sourceRegion with
   | none => ["instance requires property sourceRegion"]
   | some s => if s.length < 1 then ["instance.sourceRegion does not meet minimum length of 1"] else []) ++
  (match c.destinationRegions with
   | none => ["instance requires property destinationRegions"]
   | some rs =>
     (if rs.length < 1 then ["instance.destinationRegions does not meet minimum items of 1"] else []) ++
     (if rs.any (fun r => r.length < 1) then ["instance.destinationRegions item does not meet minimum length of 1"] else [])) ++
  (match c.progressCheckIntervalInSeconds with
   | none => ["instance requires property progressCheckIntervalInSeconds"]
   | some n => if n < 0 then ["instance.progressCheckIntervalInSeconds must be greater than or equal to 0"] else []) ++
  (c.extraProperties.map (fun p => "instance additionalProperty " ++ p ++ " exists in instance when not allowed"))

end ConfigValidator

/-- One entry of the report: `RegionOutcome`. The JavaScript object's absent
properties are `none`. -/
structure RegionOutcome where
  success : Bool
  imageId : Option String
  error : Option JsError
deriving DecidableEq

/-- The initial placeholder outcome given to every region before any work
begins: `{error: new Error('Cloning not attempted'), imageId: undefined,
success: false}`. -/
def placeholderOutcome : RegionOutcome :=
  { success := false, imageId := none, error := some (JsError.message "Cloning not attempted") }

/-- The report: a JavaScript object keyed by region, modelled as an
association list in key-insertion order. -/
abbrev Report := List (String × RegionOutcome)

/-- Keys of a report, in order. -/
def reportKeys (rep : Report) : List String := rep.map Prod.fst

/-- Property lookup on the report object. -/
def reportLookup : Report → String → Option RegionOutcome
  | [], _ => none
  | p :: rest, r => if p.1 = r then some p.2 else reportLookup rest r

/-- Assignment to an existing key of the report object (`results[region] = v`
or a field write on `results[region]`); keys not present are untouched. -/
def updateReport (rep : Report) (r : String) (f : RegionOutcome → RegionOutcome) : Report :=
  rep.map (fun p => if p.1 = r then (p.1, f p.2) else p)

/-- Helper for `dedupFirst`: keep each element not already seen, in order,
accumulating the seen set. -/
def dedupFirstAux (seen : List String) : List String → List String
  | [] => []
  | r :: rest =>
    if r ∈ seen then dedupFirstAux seen rest
    else r :: dedupFirstAux (r :: seen) rest

/-- First-occurrence deduplication: the key set and key order produced by
`_.keyBy` over a list (JavaScript object keys appear in first-insertion
order; later duplicates re-assign the existing key). -/
def dedupFirst (l : List String) : List String := dedupFirstAux [] l

/-- The report as initialized at the top of `cloneImage`:
`_.chain(destinationRegions).keyBy(...).mapValues(...)`, one placeholder
entry per distinct region. -/
def initialReport (regions : List String) : Report :=
  (dedupFirst regions).map (fun r => (r, placeholderOutcome))

-- Basic lemmas about the report structure.

theorem reportKeys_updateReport (rep : Report) (r : String) (f : RegionOutcome → RegionOutcome) :
    reportKeys (updateReport rep r f) = reportKeys rep := by
  induction rep with
  | nil => rfl
  | cons p rest ih =>
    rcases p with ⟨k, v⟩
    have hhead : (if (k, v).1 = r then ((k, v).1, f (k, v).2) else (k, v)).1 = k := by
      by_cases h : k = r <;> simp [h]
    simp only [updateReport, reportKeys, List.map_cons] at ih ⊢
    rw [hhead, ih]

theorem reportLookup_updateReport_self (rep : Report) (r : String) (f : RegionOutcome → RegionOutcome) :
    reportLookup (updateReport rep r f) r = (reportLookup rep r).map f := by
  induction rep with
  | nil => rfl
  | cons p rest ih =>
    simp only [updateReport] at ih
    simp only [updateReport, List.map_cons, reportLookup]
    by_cases h : p.1 = r
    · simp [h]
    · simp only [if_neg h]
      exact ih

theorem reportLookup_updateReport_other (rep : Report) (r r' : String) (f : RegionOutcome → RegionOutcome)
    (h : r' ≠ r) :
    reportLookup (updateReport rep r f) r' = reportLookup rep r' := by
  induction rep with
  | nil => rfl
  | cons p rest ih =>
    simp only [updateReport] at ih
    simp only [updateReport, List.map_cons, reportLookup]
    by_cases hk : p.1 = r
    · have hne : ¬(p.1 = r') := by rw [hk]; exact fun hc => h hc.symm
      simp only [if_pos hk]
      rw [if_neg (show ¬((p.1, f p.2).1 = r') from hne), if_neg hne]
      exact ih
    · simp only [if_neg hk]
      by_cases hk' : p.1 = r'
      · simp [hk']
      · simp only [if_neg hk']
        exact ih

theorem mem_dedupFirstAux (l : List String) :
    ∀ (seen : List String) (a : String),
      a ∈ dedupFirstAux seen l ↔ a ∈ l ∧ a ∉ seen := by
  induction l with
  | nil => intro seen a; simp [dedupFirstAux]
  | cons r rest ih =>
    intro seen a
    rw [dedupFirstAux]
    by_cases hr : r ∈ seen
    · rw [if_pos hr, ih seen a, List.mem_cons]
      constructor
      · rintro ⟨h1, h2⟩
        exact ⟨Or.inr h1, h2⟩
      · rintro ⟨h1 | h1, h2⟩
        · exact absurd (h1 ▸ hr) h2
        · exact ⟨h1, h2⟩
    · rw [if_neg hr, List.mem_cons, List.mem_cons, ih (r :: seen) a]
      constructor
      · rintro (h | ⟨h1, h2⟩)
        · exact ⟨Or.inl h, h ▸ hr⟩
        · exact ⟨Or.inr h1, fun hs => h2 (List.mem_cons_of_mem _ hs)⟩
      · rintro ⟨h1 | h1, h2⟩
        · exact Or.inl h1
        · by_cases har : a = r
          · exact Or.inl har
          · refine Or.inr ⟨h1, fun hs => ?_⟩
            rcases List.mem_cons.mp hs with h' | h'
            · exact har h'
            · exact h2 h'

theorem mem_dedupFirst (l : List String) (a : String) : a ∈ dedupFirst l ↔ a ∈ l := by
  rw [dedupFirst, mem_dedupFirstAux]
  simp

theorem dedupFirstAux_of_nodup (l : List String) :
    ∀ (seen : List String), l.Nodup → (∀ x ∈ l, x ∉ seen) → dedupFirstAux seen l = l := by
  induction l with
  | nil => intro seen _ _; rfl
  | cons r rest ih =>
    intro seen h hseen
    have hr : r ∉ rest := (List.nodup_cons.mp h).1
    rw [dedupFirstAux, if_neg (hseen r (List.mem_cons_self r rest)),
      ih (r :: seen) (List.nodup_cons.mp h).2]
    intro x hx hs
    rcases List.mem_cons.mp hs with h' | h'
    · exact hr (h' ▸ hx)
    · exact hseen x (List.mem_cons_of_mem _ hx) h'

theorem dedupFirst_of_nodup (l : List String) (h : l.Nodup) : dedupFirst l = l :=
  dedupFirstAux_of_nodup l [] h (fun x _ => List.not_mem_nil x)

theorem reportLookup_pairs (l : List String) (c : RegionOutcome) (a : String) :
    reportLookup (l.map (fun r => (r, c))) a = if a ∈ l then some c else none := by
  induction l with
  | nil => rfl
  | cons r rest ih =>
    by_cases h : r = a
    · simp [reportLookup, h]
    · simp only [List.map_cons, reportLookup, if_neg h, ih, List.mem_cons]
      have : ¬a = r := fun hc => h hc.symm
      simp [this]

theorem reportLookup_initialReport (regions : List String) (a : String) :
    reportLookup (initialReport regions) a =
      if a ∈ regions then some placeholderOutcome else none := by
  rw [initialReport, reportLookup_pairs]
  by_cases h : a ∈ regions
  · rw [if_pos ((mem_dedupFirst regions a).mpr h), if_pos h]
  · rw [if_neg (fun hc => h ((mem_dedupFirst regions a).mp hc)), if_neg h]

theorem reportKeys_initialReport (regions : List String) :
    reportKeys (initialReport regions) = dedupFirst regions := by
  simp [initialReport, reportKeys, List.map_map, Function.comp_def]

/-- The region whose worker corresponds to the event index `i`: the `i`-th
element of `destinationRegions` (the element `async.each` passed to that
iteratee). -/
def regionAt (regions : List String) (i : Nat) : String := regions.getD i ""

/-- One invocation of the `cloneImageToRegions` step callback
(`asyncCallback`): the argument it was invoked with, how many per-region
workers had completed at that instant, and the state of `results` at that
instant. -/
structure StepCallback where
  arg : Option JsError
  workersFinished : Nat
  reportSnapshot : Report
deriving DecidableEq

/-- State of the `cloneImageToRegions` step of `cloneImage` while the
concurrent per-region worker callbacks fire: the shared `results` object, the
`firstCloneImageError` variable, the number of `innerAsyncCallback` calls
`async.each` is still waiting for, the number of worker callbacks processed
so far, and the invocations of the series-step callback `asyncCallback`. -/
structure StepSim where
  report : Report
  firstCloneImageError : Option JsError
  remaining : Nat
  eventsProcessed : Nat
  stepCallbacks : List StepCallback
deriving DecidableEq

/-- The result callback passed to `self.cloneImageToRegion` for worker `i`
(lines 307–319 of `lib/imageCloner.js`), fired when that worker completes.
On error it records `firstCloneImageError = firstCloneImageError || error`,
assigns `results[destinationRegion].error = error` and calls
`innerAsyncCallback()` (so `async.each`'s final callback — which invokes
`asyncCallback(firstCloneImageError)` — fires once every worker has taken
this branch). On success it replaces the region's entry with
`{success: true, imageId}` and then calls `asyncCallback()` — the
series-step callback, not `innerAsyncCallback` — exactly as the source
does. -/
def processEvent (regions : List String) (w : Nat → Except JsError String)
    (s : StepSim) (i : Nat) : StepSim :=
  match w i with
  | .error e =>
    let fcie : Option JsError := some (s.firstCloneImageError.getD e)
    let rep := updateReport s.report (regionAt regions i) (fun o => { o with error := some e })
    let rem := s.remaining - 1
    { report := rep,
      firstCloneImageError := fcie,
      remaining := rem,
      eventsProcessed := s.eventsProcessed + 1,
      stepCallbacks :=
        if rem = 0 then s.stepCallbacks ++ [⟨fcie, s.eventsProcessed + 1, rep⟩]
        else s.stepCallbacks }
  | .ok id =>
    let rep := updateReport s.report (regionAt regions i)
      (fun _ => { success := true, imageId := some id, error := none })
    { report := rep,
      firstCloneImageError := s.firstCloneImageError,
      remaining := s.remaining,
      eventsProcessed := s.eventsProcessed + 1,
      stepCallbacks := s.stepCallbacks ++ [⟨none, s.eventsProcessed + 1, rep⟩] }

/-- The `cloneImageToRegions` step of `cloneImage`: `async.each` over
`destinationRegions`, with the worker completion callbacks firing in the
order given by `schedule` (a list of worker indices; JavaScript timers make
this order arbitrary). `async.each []` invokes its final callback
immediately, so with no regions `asyncCallback(undefined)` fires at once. -/
def runRegionsStep (regions : List String) (w : Nat → Except JsError String)
    (schedule : List Nat) : StepSim :=
  let init : StepSim :=
    { report := initialReport regions,
      firstCloneImageError := none,
      remaining := regions.length,
      eventsProcessed := 0,
      stepCallbacks :=
        if regions.isEmpty then [⟨none, 0, initialReport regions⟩] else [] }
  schedule.foldl (processEvent regions w) init

/-- A remote call issued directly by `cloneImage` (the source lookups). -/
inductive RemoteCall
  | describeImage (imageId region : String)
  | describeImageAttribute (imageId region attributeName : String)
deriving DecidableEq

/-- The environment of one `cloneImage` invocation: the outcomes of the two
source lookups, the outcome of each region worker (indexed by position in
`destinationRegions`), and the order in which worker callbacks fire. -/
structure Env where
  describeSourceImage : Except JsError Image
  describeSourcePermissions : Except JsError (List LaunchPermission)
  workerResult : Nat → Except JsError String
  schedule : List Nat

/-- One invocation of the top-level completion callback: its error argument
and the state of `results` at the instant it fired, plus how many workers
had completed then. -/
structure TopCallback where
  error : Option JsError
  reportSnapshot : Report
  workersFinished : Nat
deriving DecidableEq

/-- Everything observable about one `cloneImage` run: the (first) top-level
callback invocation (`none` if it never fired within the modelled events),
the final state of the `results` object after all scheduled worker
callbacks, the remote calls `cloneImage` itself issued, whether the region
workers were launched, how many times the `cloneImageToRegions` step
callback was invoked (a second invocation makes `async` throw
"Callback was already called"), and the configuration object's state after
the run. -/
structure CloneResult where
  callback : Option TopCallback
  finalReport : Report
  remoteCalls : List RemoteCall
  workersStarted : Bool
  stepCallbackCount : Nat
  finalConfig : Config
deriving DecidableEq

namespace ImageCloner

/-- `ImageCloner.prototype.fillConfigurationDefaults`: the value
`_.defaults(config, {progressCheckIntervalInSeconds: 30})` — the
configuration with the default interval assigned when the caller omitted
it. -/
def fillConfigurationDefaults (config : Config) : Config :=
  { config with
    progressCheckIntervalInSeconds := some (config.progressCheckIntervalInSeconds.getD 30) }

/-- State of the caller-supplied configuration object after
`new ImageCloner(config)`. lodash `_.defaults(object, source)` assigns each
missing default onto its first argument in place and returns that same
object, so `this.config` and the caller's object are one and the same
object, whose state is the filled configuration. -/
def callerConfigAfterConstruction (config : Config) : Config :=
  fillConfigurationDefaults config

/-- `ImageCloner.prototype.cloneImage`: initialize `results` with a
placeholder per (distinct) destination region, then run the `async.series`
steps `validateConfig`, `getImage`, `getImageLaunchPermissions`,
`cloneImageToRegions`; the series' final callback invokes
`callback(error, results)`. A failing step short-circuits the series with
its error; the `cloneImageToRegions` step behaves as `runRegionsStep`, and
the series' final callback fires at the first invocation of that step's
callback. -/
def cloneImage (config : Config) (env : Env) : CloneResult :=
  let regions := config.destinationRegions.getD []
  let report0 := initialReport regions
  match ConfigValidator.validate config with
  | firstError :: restErrors =>
    { callback := some ⟨some (JsError.validationErrors (firstError :: restErrors)), report0, 0⟩,
      finalReport := report0,
      remoteCalls := [],
      workersStarted := false,
      stepCallbackCount := 0,
      finalConfig := config }
  | [] =>
    match env.describeSourceImage with
    | .error e =>
      { callback := some ⟨some e, report0, 0⟩,
        finalReport := report0,
        remoteCalls := [.describeImage (config.sourceImageId.getD "") (config.sourceRegion.getD "")],
        workersStarted := false,
        stepCallbackCount := 0,
        finalConfig := config }
    | .ok _image =>
      match env.describeSourcePermissions with
      | .error e =>
        { callback := some ⟨some e, report0, 0⟩,
          finalReport := report0,
          remoteCalls :=
            [.describeImage (config.sourceImageId.getD "") (config.sourceRegion.getD ""),
             .describeImageAttribute (config.sourceImageId.getD "") (config.sourceRegion.getD "") "launchPermission"],
          workersStarted := false,
          stepCallbackCount := 0,
          finalConfig := config }
      | .ok _perms =>
        let sim := runRegionsStep regions env.workerResult env.schedule
        { callback := sim.stepCallbacks.head?.map
            (fun c => ⟨c.arg, c.reportSnapshot, c.workersFinished⟩),
          finalReport := sim.report,
          remoteCalls :=
            [.describeImage (config.sourceImageId.getD "") (config.sourceRegion.getD ""),
             .describeImageAttribute (config.sourceImageId.getD "") (config.sourceRegion.getD "") "launchPermission"],
          workersStarted := true,
          stepCallbackCount := sim.stepCallbacks.length,
          finalConfig := config }

end ImageCloner

/-- The modification value built by the worker for `modifyImageAttribute`:
the object literal `{Add: launchPermissions}` — only an additive grant, no
`Remove` property. -/
structure ModifyValue where
  Add : List LaunchPermission
deriving DecidableEq

/-- A step of the per-region pipeline of `cloneImageToRegion`, with the
arguments the step passes to the EC2 layer. -/
inductive WorkerStep
  | copyImage (sourceImageId name description sourceRegion destinationRegion : String)
  | awaitCompletion (imageId destinationRegion : String)
  | tagImage (imageId destinationRegion : String) (tags : List Tag)
  | setLaunchPermissions (imageId destinationRegion attributeName : String) (value : ModifyValue)
deriving DecidableEq

/-- The outcomes of the remote operations one region worker performs:
`ec2.copyImage`, the completion poll (`awaitImageCopyCompletion`, verified
separately below), `ec2.tagImage` and `ec2.modifyImageAttribute`. -/
structure WorkerEnv where
  copyResult : Except JsError String
  awaitResult : Except JsError Unit
  tagResult : Except JsError Unit
  modifyResult : Except JsError Unit

namespace ImageCloner

/-- `ImageCloner.prototype.cloneImageToRegion`: the `async.series` of the
four steps `copyImage`, `awaitCompletion`, `tagImage`,
`setLaunchPermissions`, each run only if every earlier step succeeded; the
series' final callback yields the first error, or `(null, clonedImageId)` on
full success. Returns the worker's result together with the ordered list of
steps that were invoked. -/
def cloneImageToRegion (image : Image) (launchPermissions : List LaunchPermission)
    (sourceRegion destinationRegion : String) (env : WorkerEnv) :
    Except JsError String × List WorkerStep :=
  let copyStep := WorkerStep.copyImage image.ImageId image.Name image.Description
    sourceRegion destinationRegion
  match env.copyResult with
  | .error e => (.error e, [copyStep])
  | .ok clonedImageId =>
    let awaitStep := WorkerStep.awaitCompletion clonedImageId destinationRegion
    match env.awaitResult with
    | .error e => (.error e, [copyStep, awaitStep])
    | .ok _ =>
      let tagStep := WorkerStep.tagImage clonedImageId destinationRegion image.Tags
      match env.tagResult with
      | .error e => (.error e, [copyStep, awaitStep, tagStep])
      | .ok _ =>
        let permStep := WorkerStep.setLaunchPermissions clonedImageId destinationRegion
          "launchPermission" ⟨launchPermissions⟩
        match env.modifyResult with
        | .error e => (.error e, [copyStep, awaitStep, tagStep, permStep])
        | .ok _ => (.ok clonedImageId, [copyStep, awaitStep, tagStep, permStep])

/-- The full four-step pipeline of `cloneImageToRegion` in order, given the
identifier the copy step yielded. -/
def pipelineSteps (image : Image) (launchPermissions : List LaunchPermission)
    (sourceRegion destinationRegion clonedImageId : String) : List WorkerStep :=
  [WorkerStep.copyImage image.ImageId image.Name image.Description sourceRegion destinationRegion,
   WorkerStep.awaitCompletion clonedImageId destinationRegion,
   WorkerStep.tagImage clonedImageId destinationRegion image.Tags,
   WorkerStep.setLaunchPermissions clonedImageId destinationRegion "launchPermission"
     ⟨launchPermissions⟩]

end ImageCloner

/-- An observable action of the completion poller: the `setTimeout` wait (in
milliseconds, as passed to `setTimeout`) or the `describeImage` state
query. -/
inductive PollEvent
  | wait (milliseconds : Int)
  | query (imageId region : String)
deriving DecidableEq

/-- The trace of `n` poller ticks: each tick waits
`progressCheckIntervalInSeconds * 1000` milliseconds and then queries the
image's state. -/
def pollTicks (intervalInSeconds : Int) (imageId region : String) (n : Nat) : List PollEvent :=
  (List.replicate n [PollEvent.wait (intervalInSeconds * 1000), PollEvent.query imageId region]).flatten

namespace ImageCloner

/-- `ImageCloner.prototype.awaitImageCopyCompletion`: the `async.doUntil`
loop. Each iteration waits the configured interval, queries the image
(`describe k` is the outcome of the `k`-th query), aborts with the query's
error, or records `imageState = image.State` and re-tests
`imageState && imageState !== 'pending'` (a string is truthy exactly when it
is non-empty). `fuel` bounds the number of iterations modelled; `none` means
the loop was still running after `fuel` iterations. Returns the loop result
and the trace of waits and queries. -/
def awaitImageCopyCompletion (intervalInSeconds : Int) (imageId region : String) :
    (Nat → Except JsError Image) → Nat → Option (Except JsError Unit) × List PollEvent
  | _, 0 => (none, [])
  | describe, fuel + 1 =>
    let tick := [PollEvent.wait (intervalInSeconds * 1000), PollEvent.query imageId region]
    match describe 0 with
    | .error e => (some (.error e), tick)
    | .ok image =>
      if image.State ≠ "" ∧ image.State ≠ "pending" then (some (.ok ()), tick)
      else
        let rest := awaitImageCopyCompletion intervalInSeconds imageId region
          (fun j => describe (j + 1)) fuel
        (rest.1, tick ++ rest.2)

end ImageCloner

namespace constants

/-- `constants.modifyImageAttributesProperty`: the supported-attribute table
`{launchPermission: 'LaunchPermission'}`; lookup of any other key yields
`undefined`. -/
def modifyImageAttributesProperty (attributeName : String) : Option String :=
  if attributeName = "launchPermission" then some "LaunchPermission" else none

end constants

/-- `async.retry({times, interval}, task, callback)`: run the task up to
`times` times (`attempts k` is the outcome of the `k`-th underlying client
call), stopping at the first success; yields the final outcome and the
number of client calls made. `remainingTimes` starts at the configured
`times` (3 in `lib/ec2.js`). -/
def asyncRetry (attempts : Nat → Except String Unit) :
    Nat → Nat → Except String Unit × Nat
  | 0, k => (.error "", k)
  | remainingTimes + 1, k =>
    match attempts k with
    | .ok u => (.ok u, k + 1)
    | .error e =>
      if remainingTimes = 0 then (.error e, k + 1)
      else asyncRetry attempts remainingTimes (k + 1)

namespace Ec2

/-- `Ec2.prototype.modifyImageAttribute`: look the attribute up in
`constants.modifyImageAttributesProperty`; if absent, call back immediately
with the "Invalid or unsupported attribute" error, before the retry wrapper
(and hence before any remote call) runs; otherwise run the client call under
`async.retry` (times 3) and wrap a terminal failure in a
"Call to modifyImageAttribute failed" error. Yields the outcome and the
number of remote `client.modifyImageAttribute` calls made. -/
def modifyImageAttribute (imageId region attributeName : String) (value : ModifyValue)
    (attempts : Nat → Except String Unit) : Except JsError Unit × Nat :=
  match constants.modifyImageAttributesProperty attributeName with
  | none =>
    (.error (.message ("Invalid or unsupported attribute for modifyImageAttribute: " ++ attributeName)), 0)
  | some _property =>
    let r := asyncRetry attempts 3 0
    match r.1 with
    | .error e => (.error (.message ("Call to modifyImageAttribute failed: " ++ e)), r.2)
    | .ok _ => (.ok (), r.2)

end Ec2

-- --------------------------------------------------------------------------
-- Helper lemmas shared by the claim theorems.
-- --------------------------------------------------------------------------

/-- The outcome a completed worker leaves in its region's report entry:
success replaces the entry with `{success: true, imageId}`, failure writes
the error onto the placeholder, leaving `success: false` and no image id. -/
def workerOutcomeEntry : Except JsError String → RegionOutcome
  | .ok id => { success := true, imageId := some id, error := none }
  | .error e => { success := false, imageId := none, error := some e }

theorem regionAt_eq_get (regions : List String) (i : Nat) (hi : i < regions.length) :
    regionAt regions i = regions.get ⟨i, hi⟩ := by
  simp [regionAt, List.getD_eq_getElem?_getD, List.getElem?_eq_getElem hi, List.get_eq_getElem]

theorem cloneImage_finalConfig (config : Config) (env : Env) :
    (ImageCloner.cloneImage config env).finalConfig = config := by
  unfold ImageCloner.cloneImage
  cases ConfigValidator.validate config with
  | cons a as => rfl
  | nil =>
    cases env.describeSourceImage with
    | error e => rfl
    | ok img =>
      cases env.describeSourcePermissions with
      | error e => rfl
      | ok perms => rfl

theorem processEvent_reportKeys (regions : List String) (w : Nat → Except JsError String)
    (s : StepSim) (i : Nat) :
    reportKeys (processEvent regions w s i).report = reportKeys s.report := by
  unfold processEvent
  cases w i <;> simp [reportKeys_updateReport]

theorem foldl_processEvent_reportKeys (regions : List String) (w : Nat → Except JsError String) :
    ∀ (sched : List Nat) (s : StepSim),
      reportKeys (List.foldl (processEvent regions w) s sched).report = reportKeys s.report
  | [], _ => rfl
  | i :: rest, s => by
    rw [List.foldl_cons, foldl_processEvent_reportKeys regions w rest,
      processEvent_reportKeys]

theorem runRegionsStep_reportKeys (regions : List String) (w : Nat → Except JsError String)
    (schedule : List Nat) :
    reportKeys (runRegionsStep regions w schedule).report = dedupFirst regions := by
  rw [runRegionsStep, foldl_processEvent_reportKeys]
  exact reportKeys_initialReport regions

/-- If a configuration validates cleanly, its destination-region list is
present and non-empty. -/
theorem validate_destinationRegions (c : Config) (h : ConfigValidator.validate c = []) :
    ∃ rs, c.destinationRegions = some rs ∧ 1 ≤ rs.length := by
  unfold ConfigValidator.validate at h
  rcases List.append_eq_nil.mp h with ⟨h1, -⟩
  rcases List.append_eq_nil.mp h1 with ⟨h2, -⟩
  rcases List.append_eq_nil.mp h2 with ⟨-, h3⟩
  cases hd : c.destinationRegions with
  | none => rw [hd] at h3; exact absurd h3 (by simp)
  | some rs =>
    rw [hd] at h3
    rcases List.append_eq_nil.mp h3 with ⟨h4, -⟩
    refine ⟨rs, rfl, ?_⟩
    by_contra hlt
    rw [if_pos (by omega)] at h4
    exact absurd h4 (by simp)

theorem cloneImage_finalReport_keys (config : Config) (env : Env) :
    reportKeys (ImageCloner.cloneImage config env).finalReport =
      dedupFirst (config.destinationRegions.getD []) := by
  unfold ImageCloner.cloneImage
  cases ConfigValidator.validate config with
  | cons a as => exact reportKeys_initialReport _
  | nil =>
    cases env.describeSourceImage with
    | error e => exact reportKeys_initialReport _
    | ok img =>
      cases env.describeSourcePermissions with
      | error e => exact reportKeys_initialReport _
      | ok perms => exact runRegionsStep_reportKeys _ _ _

theorem cloneImage_not_started (config : Config) (env : Env)
    (h : (ImageCloner.cloneImage config env).workersStarted = false) :
    (ImageCloner.cloneImage config env).finalReport =
      initialReport (config.destinationRegions.getD []) := by
  unfold ImageCloner.cloneImage at h ⊢
  cases hv : ConfigValidator.validate config with
  | cons a as => simp only [hv]
  | nil =>
    simp only [hv] at h ⊢
    cases hd : env.describeSourceImage with
    | error e => simp only [hd]
    | ok img =>
      simp only [hd] at h ⊢
      cases hp : env.describeSourcePermissions with
      | error e => simp only [hp]
      | ok perms =>
        simp only [hp] at h
        simp at h

theorem foldl_processEvent_lookup_frame (regions : List String) (w : Nat → Except JsError String) :
    ∀ (sched : List Nat) (s : StepSim) (r : String),
      (∀ j ∈ sched, regionAt regions j ≠ r) →
      reportLookup (List.foldl (processEvent regions w) s sched).report r =
        reportLookup s.report r
  | [], _, _, _ => rfl
  | j :: rest, s, r, hne => by
    rw [List.foldl_cons,
      foldl_processEvent_lookup_frame regions w rest _ r
        (fun j' hj' => hne j' (List.mem_cons_of_mem j hj'))]
    have hkey : r ≠ regionAt regions j := Ne.symm (hne j (List.mem_cons_self j rest))
    cases hw : w j with
    | error e =>
      simp only [processEvent, hw]
      exact reportLookup_updateReport_other _ _ _ _ hkey
    | ok id =>
      simp only [processEvent, hw]
      exact reportLookup_updateReport_other _ _ _ _ hkey

theorem foldl_processEvent_lookup_done (regions : List String) (w : Nat → Except JsError String)
    (hnd : regions.Nodup) :
    ∀ (sched : List Nat) (s : StepSim) (i : Nat) (hi : i < regions.length),
      sched.Nodup → (∀ j ∈ sched, j < regions.length) → i ∈ sched →
      reportLookup s.report (regions.get ⟨i, hi⟩) = some placeholderOutcome →
      reportLookup (List.foldl (processEvent regions w) s sched).report (regions.get ⟨i, hi⟩) =
        some (workerOutcomeEntry (w i))
  | [], _, i, _, _, _, hmem, _ => absurd hmem (List.not_mem_nil i)
  | j :: rest, s, i, hi, hnds, hlt, hmem, hph => by
    rw [List.foldl_cons]
    by_cases hji : j = i
    · subst hji
      have hkey : regionAt regions j = regions.get ⟨j, hi⟩ := regionAt_eq_get regions j hi
      have hstep : reportLookup (processEvent regions w s j).report (regions.get ⟨j, hi⟩) =
          some (workerOutcomeEntry (w j)) := by
        cases hw : w j with
        | error e =>
          simp only [processEvent, hw, hkey]
          rw [reportLookup_updateReport_self, hph]
          rfl
        | ok id =>
          simp only [processEvent, hw, hkey]
          rw [reportLookup_updateReport_self, hph]
          rfl
      have hnotin : j ∉ rest := (List.nodup_cons.mp hnds).1
      rw [foldl_processEvent_lookup_frame regions w rest _ _
        (fun j' hj' => by
          have hj'lt : j' < regions.length := hlt j' (List.mem_cons_of_mem j hj')
          rw [regionAt_eq_get regions j' hj'lt]
          intro hc
          have hfin := (List.Nodup.get_inj_iff hnd).mp hc
          have : j' = j := congrArg Fin.val hfin
          exact hnotin (this ▸ hj'))]
      exact hstep
    · have hjlt : j < regions.length := hlt j (List.mem_cons_self j rest)
      have hkey : regionAt regions j ≠ regions.get ⟨i, hi⟩ := by
        rw [regionAt_eq_get regions j hjlt]
        intro hc
        have hfin := (List.Nodup.get_inj_iff hnd).mp hc
        exact hji (congrArg Fin.val hfin)
      have hph' : reportLookup (processEvent regions w s j).report (regions.get ⟨i, hi⟩) =
          some placeholderOutcome := by
        cases hw : w j with
        | error e =>
          simp only [processEvent, hw]
          rw [reportLookup_updateReport_other _ _ _ _ (Ne.symm hkey)]
          exact hph
        | ok id =>
          simp only [processEvent, hw]
          rw [reportLookup_updateReport_other _ _ _ _ (Ne.symm hkey)]
          exact hph
      exact foldl_processEvent_lookup_done regions w hnd rest _ i hi
        (List.nodup_cons.mp hnds).2
        (fun j' hj' => hlt j' (List.mem_cons_of_mem j hj'))
        (by rcases List.mem_cons.mp hmem with h | h
            · exact absurd h.symm hji
            · exact h)
        hph'

-- --------------------------------------------------------------------------
-- Claim C5.
-- --------------------------------------------------------------------------

/-- A configuration that omits `progressCheckIntervalInSeconds`. -/
def c5Config : Config :=
  { sourceImageId := some "ami-1", sourceRegion := some "us-east-1",
    destinationRegions := some ["eu-west-1"], progressCheckIntervalInSeconds := none }

/-- Claim C5 counterexample: the caller-supplied configuration object IS
modified. `_.defaults` in `fillConfigurationDefaults` assigns the default
poll interval onto the caller's object in place, so after
`new ImageCloner(config)` the caller's object differs from what the caller
passed whenever `progressCheckIntervalInSeconds` was omitted. -/
theorem c5_counterexample :
    ImageCloner.callerConfigAfterConstruction c5Config ≠ c5Config := by decide

/-- Claim C5 (amended): the configuration is created once, at construction,
by filling defaults into the caller-supplied object in place — so the
caller's object is mutated exactly when it omitted
`progressCheckIntervalInSeconds`, and is left as passed otherwise — and
after construction the configuration is read-only: `cloneImage` never
mutates it, and filling touches no field other than the poll interval. -/
theorem c5_amended (config : Config) (env : Env) :
    ImageCloner.callerConfigAfterConstruction config =
      ImageCloner.fillConfigurationDefaults config ∧
    (config.progressCheckIntervalInSeconds = none →
      ImageCloner.fillConfigurationDefaults config =
        { config with progressCheckIntervalInSeconds := some 30 }) ∧
    (∀ v, config.progressCheckIntervalInSeconds = some v →
      ImageCloner.fillConfigurationDefaults config = config) ∧
    (ImageCloner.cloneImage (ImageCloner.fillConfigurationDefaults config) env).finalConfig =
      ImageCloner.fillConfigurationDefaults config := by
  refine ⟨rfl, ?_, ?_, cloneImage_finalConfig _ env⟩
  · intro hv
    simp [ImageCloner.fillConfigurationDefaults, hv]
  · intro v hv
    cases config
    simp_all [ImageCloner.fillConfigurationDefaults]

/-- Witness for the amended claim C5, at a configuration that omits the
interval and one that supplies it. -/
theorem c5_amended_witness :
    ImageCloner.callerConfigAfterConstruction c5Config =
      ImageCloner.fillConfigurationDefaults c5Config ∧
    ImageCloner.fillConfigurationDefaults c5Config =
      { c5Config with progressCheckIntervalInSeconds := some 30 } ∧
    ImageCloner.fillConfigurationDefaults
        { c5Config with progressCheckIntervalInSeconds := some 10 } =
      { c5Config with progressCheckIntervalInSeconds := some 10 } :=
  ⟨(c5_amended c5Config ⟨.error (.message "x"), .error (.message "x"),
      fun _ => .error (.message "x"), []⟩).1,
   (c5_amended c5Config ⟨.error (.message "x"), .error (.message "x"),
      fun _ => .error (.message "x"), []⟩).2.1 rfl,
   (c5_amended { c5Config with progressCheckIntervalInSeconds := some 10 }
      ⟨.error (.message "x"), .error (.message "x"),
      fun _ => .error (.message "x"), []⟩).2.2.1 10 rfl⟩

-- --------------------------------------------------------------------------
-- Claim C10.
-- --------------------------------------------------------------------------

theorem asyncRetry_calls_ge (attempts : Nat → Except String Unit) :
    ∀ (t k : Nat), k + 1 ≤ (asyncRetry attempts (t + 1) k).2
  | 0, k => by
    unfold asyncRetry
    cases attempts k <;> simp
  | t + 1, k => by
    unfold asyncRetry
    cases attempts k with
    | ok u => simp
    | error e =>
      simp only [if_neg (Nat.succ_ne_zero t)]
      have := asyncRetry_calls_ge attempts t (k + 1)
      omega

/-- Claim C10: `modifyImageAttribute` with any attribute other than
`launchPermission` (the only key of `constants.modifyImageAttributesProperty`)
returns the "Invalid or unsupported attribute" error having made zero remote
calls; with `launchPermission` at least one remote call is made and any
error returned is a wrapped client failure, so the invalid-attribute branch
is unreachable. -/
theorem c10_modify_image_attribute (imageId region attributeName : String)
    (value : ModifyValue) (attempts : Nat → Except String Unit) :
    (attributeName ≠ "launchPermission" →
      Ec2.modifyImageAttribute imageId region attributeName value attempts =
        (.error (.message
          ("Invalid or unsupported attribute for modifyImageAttribute: " ++ attributeName)), 0)) ∧
    (attributeName = "launchPermission" →
      1 ≤ (Ec2.modifyImageAttribute imageId region attributeName value attempts).2 ∧
      ∀ e, (Ec2.modifyImageAttribute imageId region attributeName value attempts).1 =
          .error e →
        ∃ s, e = .message ("Call to modifyImageAttribute failed: " ++ s)) := by
  constructor
  · intro hne
    unfold Ec2.modifyImageAttribute constants.modifyImageAttributesProperty
    rw [if_neg hne]
  · intro heq
    subst heq
    unfold Ec2.modifyImageAttribute constants.modifyImageAttributesProperty
    simp only [if_pos rfl]
    have hge := asyncRetry_calls_ge attempts 2 0
    cases hr : (asyncRetry attempts 3 0).1 with
    | ok u =>
      refine ⟨?_, ?_⟩
      · simp only [hr]
        exact hge
      · intro e he
        simp [hr] at he
    | error s =>
      refine ⟨?_, ?_⟩
      · simp only [hr]
        exact hge
      · intro e he
        simp only [hr] at he
        exact ⟨s, by injection he with h; exact h.symm⟩

/-- Witness for claim C10 at a concrete unsupported attribute and at
`launchPermission`. -/
theorem c10_witness :
    Ec2.modifyImageAttribute "ami-1" "eu-west-1" "description" ⟨[]⟩ (fun _ => .ok ()) =
      (.error (.message
        ("Invalid or unsupported attribute for modifyImageAttribute: " ++ "description")), 0) ∧
    1 ≤ (Ec2.modifyImageAttribute "ami-1" "eu-west-1" "launchPermission" ⟨[]⟩
      (fun _ => .ok ())).2 :=
  ⟨(c10_modify_image_attribute "ami-1" "eu-west-1" "description" ⟨[]⟩
      (fun _ => .ok ())).1 (by decide),
   ((c10_modify_image_attribute "ami-1" "eu-west-1" "launchPermission" ⟨[]⟩
      (fun _ => .ok ())).2 rfl).1⟩

-- --------------------------------------------------------------------------
-- Claims C1 and C2 (defects in the fan-out callback wiring).
-- --------------------------------------------------------------------------

/-- A two-region configuration for the defect runs. -/
def twoRegionConfig : Config :=
  { sourceImageId := some "ami-1", sourceRegion := some "us-east-1",
    destinationRegions := some ["r1", "r2"],
    progressCheckIntervalInSeconds := some 0 }

/-- Environment for the claim C1 run: worker 0 (region r1) fails and its
callback fires first; worker 1 (region r2) succeeds afterwards. -/
def c1Env : Env :=
  { describeSourceImage := .ok ⟨"ami-1", "name", "desc", "available", []⟩,
    describeSourcePermissions := .ok [],
    workerResult := fun i =>
      if i = 0 then .error (.message "copy failed in r1") else .ok "ami-r2",
    schedule := [0, 1] }

/-- Claim C1 (code defect): with regions `[r1, r2]` where r1's worker fails
and then r2's succeeds, the top-level callback receives NO error even though
a region worker failed — the success branch of the per-region callback calls
the series-step callback `asyncCallback()` (with no error) instead of
`innerAsyncCallback()`, so the recorded `firstCloneImageError` is never
delivered. The report does record r1's failure. -/
theorem c1_error_dropped :
    (ImageCloner.cloneImage twoRegionConfig c1Env).callback =
      some ⟨none,
        [("r1", { success := false, imageId := none,
                  error := some (.message "copy failed in r1") }),
         ("r2", { success := true, imageId := some "ami-r2", error := none })], 2⟩ ∧
    c1Env.workerResult 0 = .error (.message "copy failed in r1") := by decide

/-- Environment for the claim C2 run: both workers succeed, worker 0's
callback fires first. -/
def c2Env : Env :=
  { describeSourceImage := .ok ⟨"ami-1", "name", "desc", "available", []⟩,
    describeSourcePermissions := .ok [],
    workerResult := fun i => if i = 0 then .ok "ami-a" else .ok "ami-b",
    schedule := [0, 1] }

/-- Claim C2 (code defect): with two regions that both succeed, the
top-level callback fires after only one of the two workers has finished
(r2's entry is still the placeholder in the snapshot it receives), and the
series-step callback is invoked twice — the success branch calls
`asyncCallback()` instead of `innerAsyncCallback()`, so the first success
completes the series early and the second invocation makes `async` throw
"Callback was already called". -/
theorem c2_early_and_double_callback :
    (ImageCloner.cloneImage twoRegionConfig c2Env).callback =
      some ⟨none,
        [("r1", { success := true, imageId := some "ami-a", error := none }),
         ("r2", placeholderOutcome)], 1⟩ ∧
    (twoRegionConfig.destinationRegions.getD []).length = 2 ∧
    (ImageCloner.cloneImage twoRegionConfig c2Env).stepCallbackCount = 2 := by decide

-- --------------------------------------------------------------------------
-- Claim C3.
-- --------------------------------------------------------------------------

/-- Environment for the claim C3 counterexample: both workers fail, but the
worker of r2 (iteration-order second) completes first. -/
def c3Env : Env :=
  { describeSourceImage := .ok ⟨"ami-1", "name", "desc", "available", []⟩,
    describeSourcePermissions := .ok [],
    workerResult := fun i =>
      if i = 0 then .error (.message "E1") else .error (.message "E2"),
    schedule := [1, 0] }

/-- Claim C3 counterexample: with destination order `[r1, r2]`, r1 failing
with E1 and r2 failing with E2, but r2's callback firing first, the error
delivered is E2 — the chronologically first failure by completion time — not
E1, the failure of the first failing region in iteration order.
`firstCloneImageError = firstCloneImageError || error` keeps whichever
failure callback fired first. -/
theorem c3_counterexample :
    twoRegionConfig.destinationRegions = some ["r1", "r2"] ∧
    c3Env.workerResult 0 = .error (.message "E1") ∧
    (ImageCloner.cloneImage twoRegionConfig c3Env).callback =
      some ⟨some (.message "E2"),
        [("r1", { success := false, imageId := none, error := some (.message "E1") }),
         ("r2", { success := false, imageId := none, error := some (.message "E2") })], 2⟩ ∧
    some (JsError.message "E2") ≠ some (JsError.message "E1") := by decide

theorem allFail_foldl (regions : List String) (w : Nat → Except JsError String) :
    ∀ (rest : List Nat) (j : Nat) (s : StepSim) (e : JsError),
      w j = .error e → (∀ j' ∈ rest, ∃ e', w j' = .error e') →
      s.remaining = rest.length + 1 → s.stepCallbacks = [] →
      (List.foldl (processEvent regions w) s (j :: rest)).stepCallbacks =
        [⟨some (s.firstCloneImageError.getD e),
          s.eventsProcessed + rest.length + 1,
          (List.foldl (processEvent regions w) s (j :: rest)).report⟩]
  | [], j, s, e, hj, _, hrem, hcb => by
    rw [List.foldl_cons, List.foldl_nil]
    simp [processEvent, hj, hrem, hcb]
  | j' :: rest', j, s, e, hj, hfail, hrem, hcb => by
    obtain ⟨e', hj'⟩ := hfail j' (List.mem_cons_self j' rest')
    rw [List.foldl_cons]
    have h1rem : (processEvent regions w s j).remaining = rest'.length + 1 := by
      simp [processEvent, hj, hrem]
    have h1cb : (processEvent regions w s j).stepCallbacks = [] := by
      simp [processEvent, hj, hrem, hcb]
    have h1fc : (processEvent regions w s j).firstCloneImageError =
        some (s.firstCloneImageError.getD e) := by
      simp [processEvent, hj]
    have h1ev : (processEvent regions w s j).eventsProcessed = s.eventsProcessed + 1 := by
      simp [processEvent, hj]
    rw [allFail_foldl regions w rest' j' (processEvent regions w s j) e' hj'
      (fun x hx => hfail x (List.mem_cons_of_mem _ hx)) h1rem h1cb]
    rw [h1fc, h1ev]
    have hev : s.eventsProcessed + 1 + rest'.length + 1 =
        s.eventsProcessed + (j' :: rest').length + 1 := by
      simp [List.length_cons]
      omega
    rw [hev]
    simp [Option.getD]

/-- Claim C3 (amended): the error the top-level callback delivers alongside
a failure is the chronologically first worker failure — the failure of the
first worker callback to fire (the head of the completion schedule) — not
necessarily the failure of the first failing region in iteration order; and
a worker-failure error is only ever delivered when every worker failed
(otherwise the first success fires the callback with no error). In the
all-fail case the callback fires exactly once, after all workers have
finished, with the complete report alongside. -/
theorem c3_amended (config : Config) (env : Env) (img : Image)
    (perms : List LaunchPermission)
    (hv : ConfigValidator.validate config = [])
    (hsi : env.describeSourceImage = .ok img)
    (hsp : env.describeSourcePermissions = .ok perms)
    (hlen : env.schedule.length = (config.destinationRegions.getD []).length)
    (j : Nat) (rest : List Nat) (hsched : env.schedule = j :: rest)
    (e : JsError) (hj : env.workerResult j = .error e)
    (hfail : ∀ j' ∈ rest, ∃ e', env.workerResult j' = .error e') :
    (ImageCloner.cloneImage config env).callback =
      some ⟨some e, (ImageCloner.cloneImage config env).finalReport,
        (config.destinationRegions.getD []).length⟩ ∧
    (ImageCloner.cloneImage config env).stepCallbackCount = 1 := by
  obtain ⟨rs, hrs, hrs1⟩ := validate_destinationRegions config hv
  have hempty : (config.destinationRegions.getD []).isEmpty = false := by
    rw [hrs]
    cases rs with
    | nil => simp at hrs1
    | cons a as => simp
  have hrem : (config.destinationRegions.getD []).length = rest.length + 1 := by
    rw [← hlen, hsched, List.length_cons]
  have hinit :
      (runRegionsStep (config.destinationRegions.getD []) env.workerResult env.schedule) =
        List.foldl (processEvent (config.destinationRegions.getD []) env.workerResult)
          { report := initialReport (config.destinationRegions.getD []),
            firstCloneImageError := none,
            remaining := (config.destinationRegions.getD []).length,
            eventsProcessed := 0,
            stepCallbacks := [] } (j :: rest) := by
    rw [runRegionsStep, hsched, hempty]
    rfl
  have hrun := allFail_foldl (config.destinationRegions.getD []) env.workerResult rest j
    { report := initialReport (config.destinationRegions.getD []),
      firstCloneImageError := none,
      remaining := (config.destinationRegions.getD []).length,
      eventsProcessed := 0,
      stepCallbacks := [] } e hj hfail hrem rfl
  have hstep :
      (runRegionsStep (config.destinationRegions.getD []) env.workerResult
          env.schedule).stepCallbacks =
        [⟨some e, (config.destinationRegions.getD []).length,
          (runRegionsStep (config.destinationRegions.getD []) env.workerResult
            env.schedule).report⟩] := by
    rw [hinit, hrun, hrem]
    simp
  have hcl :
      (ImageCloner.cloneImage config env).callback =
        ((runRegionsStep (config.destinationRegions.getD []) env.workerResult
          env.schedule).stepCallbacks.head?).map
            (fun c => ⟨c.arg, c.reportSnapshot, c.workersFinished⟩) ∧
      (ImageCloner.cloneImage config env).finalReport =
        (runRegionsStep (config.destinationRegions.getD []) env.workerResult
          env.schedule).report ∧
      (ImageCloner.cloneImage config env).stepCallbackCount =
        (runRegionsStep (config.destinationRegions.getD []) env.workerResult
          env.schedule).stepCallbacks.length := by
    unfold ImageCloner.cloneImage
    simp [hv, hsi, hsp]
  refine ⟨?_, ?_⟩
  · rw [hcl.1, hcl.2.1, hstep]
    rfl
  · rw [hcl.2.2, hstep]
    rfl

/-- Witness for the amended claim C3 at the concrete all-fail run of the
counterexample: the delivered error is E2, the failure whose callback fired
first. -/
theorem c3_amended_witness :
    (ImageCloner.cloneImage twoRegionConfig c3Env).callback =
      some ⟨some (JsError.message "E2"),
        (ImageCloner.cloneImage twoRegionConfig c3Env).finalReport, 2⟩ ∧
    (ImageCloner.cloneImage twoRegionConfig c3Env).stepCallbackCount = 1 :=
  c3_amended twoRegionConfig c3Env ⟨"ami-1", "name", "desc", "available", []⟩ []
    (by decide) rfl rfl (by decide) 1 [0] rfl (JsError.message "E2") rfl
    (by intro j' hj'
        have : j' = 0 := by simpa using hj'
        subst this
        exact ⟨JsError.message "E1", rfl⟩)

-- --------------------------------------------------------------------------
-- Claim C6.
-- --------------------------------------------------------------------------

/-- Claim C6: the per-region pipeline runs exactly the ordered steps copy →
await completion → tag → modify launch permissions (additively: the modify
value is `{Add: launchPermissions}`), each gated on the previous step's
success. On full success it yields the copied image's identifier and ran all
four steps; a failure at step k yields that step's error as the region's
outcome with steps k+1..4 never invoked. -/
theorem c6_pipeline (image : Image) (perms : List LaunchPermission)
    (src dst : String) (env : WorkerEnv) :
    (∀ cid, (ImageCloner.cloneImageToRegion image perms src dst env).1 = .ok cid →
      env.copyResult = .ok cid ∧ env.awaitResult = .ok () ∧ env.tagResult = .ok () ∧
      env.modifyResult = .ok () ∧
      (ImageCloner.cloneImageToRegion image perms src dst env).2 =
        ImageCloner.pipelineSteps image perms src dst cid) ∧
    (∀ e, (ImageCloner.cloneImageToRegion image perms src dst env).1 = .error e →
      ((env.copyResult = .error e ∧
        (ImageCloner.cloneImageToRegion image perms src dst env).2 =
          (ImageCloner.pipelineSteps image perms src dst "").take 1) ∨
       (∃ cid, env.copyResult = .ok cid ∧ env.awaitResult = .error e ∧
        (ImageCloner.cloneImageToRegion image perms src dst env).2 =
          (ImageCloner.pipelineSteps image perms src dst cid).take 2) ∨
       (∃ cid, env.copyResult = .ok cid ∧ env.awaitResult = .ok () ∧
        env.tagResult = .error e ∧
        (ImageCloner.cloneImageToRegion image perms src dst env).2 =
          (ImageCloner.pipelineSteps image perms src dst cid).take 3) ∨
       (∃ cid, env.copyResult = .ok cid ∧ env.awaitResult = .ok () ∧
        env.tagResult = .ok () ∧ env.modifyResult = .error e ∧
        (ImageCloner.cloneImageToRegion image perms src dst env).2 =
          ImageCloner.pipelineSteps image perms src dst cid))) := by
  obtain ⟨cr, ar, tr, mr⟩ := env
  cases cr with
  | error e0 =>
    refine ⟨fun cid h => Except.noConfusion h, fun e h => ?_⟩
    injection h with he
    subst he
    exact Or.inl ⟨rfl, rfl⟩
  | ok cid0 =>
    cases ar with
    | error e0 =>
      refine ⟨fun cid h => Except.noConfusion h, fun e h => ?_⟩
      injection h with he
      subst he
      exact Or.inr (Or.inl ⟨cid0, rfl, rfl, rfl⟩)
    | ok u =>
      cases tr with
      | error e0 =>
        refine ⟨fun cid h => Except.noConfusion h, fun e h => ?_⟩
        injection h with he
        subst he
        exact Or.inr (Or.inr (Or.inl ⟨cid0, rfl, rfl, rfl, rfl⟩))
      | ok u' =>
        cases mr with
        | error e0 =>
          refine ⟨fun cid h => Except.noConfusion h, fun e h => ?_⟩
          injection h with he
          subst he
          exact Or.inr (Or.inr (Or.inr ⟨cid0, rfl, rfl, rfl, rfl, rfl⟩))
        | ok u'' =>
          refine ⟨fun cid h => ?_, fun e h => Except.noConfusion h⟩
          injection h with he
          subst he
          exact ⟨rfl, rfl, rfl, rfl, rfl⟩

/-- Worker environment for the claim C6 witness: every step succeeds. -/
def c6Env : WorkerEnv :=
  { copyResult := .ok "ami-new", awaitResult := .ok (),
    tagResult := .ok (), modifyResult := .ok () }

/-- Witness for claim C6 at an all-success worker run. -/
theorem c6_witness :
    c6Env.copyResult = .ok "ami-new" ∧ c6Env.awaitResult = .ok () ∧
    c6Env.tagResult = .ok () ∧ c6Env.modifyResult = .ok () ∧
    (ImageCloner.cloneImageToRegion ⟨"ami-1", "n", "d", "available", []⟩ []
        "us-east-1" "eu-west-1" c6Env).2 =
      ImageCloner.pipelineSteps ⟨"ami-1", "n", "d", "available", []⟩ []
        "us-east-1" "eu-west-1" "ami-new" :=
  (c6_pipeline ⟨"ami-1", "n", "d", "available", []⟩ [] "us-east-1" "eu-west-1"
    c6Env).1 "ami-new" rfl

-- --------------------------------------------------------------------------
-- Claim C7.
-- --------------------------------------------------------------------------

theorem pollTicks_succ (intervalInSeconds : Int) (imageId region : String) (n : Nat) :
    pollTicks intervalInSeconds imageId region (n + 1) =
      [PollEvent.wait (intervalInSeconds * 1000), PollEvent.query imageId region] ++
        pollTicks intervalInSeconds imageId region n := by
  simp [pollTicks, List.replicate_succ]

/-- Claim C7: the poller queries the image's state each tick (after waiting
one fixed interval of `progressCheckIntervalInSeconds`, converted to
milliseconds for `setTimeout`); while it observes the in-progress marker
"pending" it keeps ticking; the first query error aborts the poll
immediately — surfaced as the poller's failure, with no further tick — and
any other (truthy) state returns control to the caller successfully,
without inspecting which terminal state was reached. -/
theorem c7_poller (intervalInSeconds : Int) (imageId region : String)
    (describe : Nat → Except JsError Image) (k fuel : Nat) (hfuel : k < fuel)
    (hpending : ∀ j, j < k → ∃ img, describe j = Except.ok img ∧ img.State = "pending") :
    (∀ e, describe k = Except.error e →
      ImageCloner.awaitImageCopyCompletion intervalInSeconds imageId region describe fuel =
        (some (Except.error e), pollTicks intervalInSeconds imageId region (k + 1))) ∧
    (∀ img, describe k = Except.ok img → img.State ≠ "" → img.State ≠ "pending" →
      ImageCloner.awaitImageCopyCompletion intervalInSeconds imageId region describe fuel =
        (some (Except.ok ()), pollTicks intervalInSeconds imageId region (k + 1))) := by
  induction k generalizing describe fuel with
  | zero =>
    cases fuel with
    | zero => omega
    | succ f =>
      constructor
      · intro e he
        rw [ImageCloner.awaitImageCopyCompletion]
        simp only [he]
        rw [pollTicks_succ]
        simp [pollTicks]
      · intro img him hne hnp
        rw [ImageCloner.awaitImageCopyCompletion]
        simp only [him]
        rw [if_pos ⟨hne, hnp⟩, pollTicks_succ]
        simp [pollTicks]
  | succ k ih =>
    cases fuel with
    | zero => omega
    | succ f =>
      obtain ⟨img0, h0, hp0⟩ := hpending 0 (Nat.succ_pos k)
      have hf : k < f := by omega
      have hpend' : ∀ j, j < k →
          ∃ img, describe (j + 1) = Except.ok img ∧ img.State = "pending" :=
        fun j hj => hpending (j + 1) (by omega)
      have iha := ih (fun j => describe (j + 1)) f hf hpend'
      constructor
      · intro e he
        rw [ImageCloner.awaitImageCopyCompletion]
        simp only [h0]
        rw [if_neg (by simp [hp0])]
        have hrec := iha.1 e he
        rw [pollTicks_succ]
        simp only [hrec]
      · intro img him hne hnp
        rw [ImageCloner.awaitImageCopyCompletion]
        simp only [h0]
        rw [if_neg (by simp [hp0])]
        have hrec := iha.2 img him hne hnp
        rw [pollTicks_succ]
        simp only [hrec]

/-- A query oracle for the claim C7 witness run: pending on the first tick,
available on the second. -/
def c7Describe : Nat → Except JsError Image := fun j =>
  if j = 0 then .ok ⟨"ami-c", "n", "d", "pending", []⟩
  else .ok ⟨"ami-c", "n", "d", "available", []⟩

/-- Witness for claim C7: one pending tick then an available state; the
poller returns success after exactly two wait-query ticks. -/
theorem c7_witness :
    ImageCloner.awaitImageCopyCompletion 30 "ami-c" "eu-west-1" c7Describe 2 =
      (some (Except.ok ()), pollTicks 30 "ami-c" "eu-west-1" 2) :=
  (c7_poller 30 "ami-c" "eu-west-1" c7Describe 1 2 (by decide)
    (by intro j hj
        have hz : j = 0 := by omega
        subst hz
        exact ⟨⟨"ami-c", "n", "d", "pending", []⟩, rfl, rfl⟩)).2
    ⟨"ami-c", "n", "d", "available", []⟩ rfl (by decide) (by decide)

-- --------------------------------------------------------------------------
-- Claim C4.
-- --------------------------------------------------------------------------

/-- A configuration naming the same destination region twice (the schema
does not reject duplicates). -/
def c4Config : Config :=
  { sourceImageId := some "ami-1", sourceRegion := some "us-east-1",
    destinationRegions := some ["eu-west-1", "eu-west-1"],
    progressCheckIntervalInSeconds := some 30 }

/-- An environment whose source-image lookup fails, so no worker runs. -/
def c4Env : Env :=
  { describeSourceImage := .error (.message "describe failed"),
    describeSourcePermissions := .ok [],
    workerResult := fun _ => .ok "x",
    schedule := [] }

/-- Claim C4 counterexample: with N = 2 configured entries that name the
same region, the report has a single key, not two — `_.keyBy` collapses
duplicate regions onto one object key. -/
theorem c4_counterexample :
    (c4Config.destinationRegions.getD []).length = 2 ∧
    reportKeys (ImageCloner.cloneImage c4Config c4Env).finalReport = ["eu-west-1"] ∧
    (ImageCloner.cloneImage c4Config c4Env).finalReport.length = 1 := by decide

/-- Claim C4 (amended): the report's keys are exactly the distinct
configured destination regions in first-occurrence order — so exactly N keys
whenever the N entries are distinct — regardless of where failures occurred,
and when the workers never ran every entry still holds the initial
placeholder (`success` false, error "Cloning not attempted"). -/
theorem c4_amended (config : Config) (env : Env) :
    reportKeys (ImageCloner.cloneImage config env).finalReport =
      dedupFirst (config.destinationRegions.getD []) ∧
    ((config.destinationRegions.getD []).Nodup →
      (ImageCloner.cloneImage config env).finalReport.length =
        (config.destinationRegions.getD []).length) ∧
    ((ImageCloner.cloneImage config env).workersStarted = false →
      ∀ p ∈ (ImageCloner.cloneImage config env).finalReport, p.2 = placeholderOutcome) := by
  refine ⟨cloneImage_finalReport_keys config env, ?_, ?_⟩
  · intro hnd
    have hk := cloneImage_finalReport_keys config env
    have hlen : (reportKeys (ImageCloner.cloneImage config env).finalReport).length =
        (dedupFirst (config.destinationRegions.getD [])).length := by rw [hk]
    rw [dedupFirst_of_nodup _ hnd] at hlen
    simpa [reportKeys] using hlen
  · intro hns p hp
    rw [cloneImage_not_started config env hns] at hp
    rcases List.mem_map.mp hp with ⟨r, -, rfl⟩
    rfl

/-- Witness for the amended claim C4 at a two-region configuration with
distinct regions whose source lookup fails. -/
theorem c4_amended_witness :
    reportKeys (ImageCloner.cloneImage
        { c4Config with destinationRegions := some ["eu-west-1", "us-west-2"] } c4Env).finalReport =
      dedupFirst ["eu-west-1", "us-west-2"] ∧
    (ImageCloner.cloneImage
        { c4Config with destinationRegions := some ["eu-west-1", "us-west-2"] } c4Env).finalReport.length = 2 ∧
    ∀ p ∈ (ImageCloner.cloneImage
        { c4Config with destinationRegions := some ["eu-west-1", "us-west-2"] } c4Env).finalReport,
      p.2 = placeholderOutcome :=
  ⟨(c4_amended { c4Config with destinationRegions := some ["eu-west-1", "us-west-2"] } c4Env).1,
   (c4_amended { c4Config with destinationRegions := some ["eu-west-1", "us-west-2"] } c4Env).2.1
     (by decide),
   (c4_amended { c4Config with destinationRegions := some ["eu-west-1", "us-west-2"] } c4Env).2.2
     (by decide)⟩

-- --------------------------------------------------------------------------
-- Claim C9.
-- --------------------------------------------------------------------------

/-- Claim C9: once a region's worker has completed, its report entry is
exactly the worker's outcome: on success `{success: true, imageId, no
error}`, on failure `{success: false, error, no imageId}` — exactly one of
`imageId` and `error` populated, never both, never neither. Stated for any
run that reaches the fan-out step, with distinct regions (one worker per
report entry) and each worker completing at most once. -/
theorem c9_outcome_exclusive (config : Config) (env : Env) (img : Image)
    (perms : List LaunchPermission)
    (hv : ConfigValidator.validate config = [])
    (hsi : env.describeSourceImage = .ok img)
    (hsp : env.describeSourcePermissions = .ok perms)
    (hnd : (config.destinationRegions.getD []).Nodup)
    (hnds : env.schedule.Nodup)
    (hlt : ∀ j ∈ env.schedule, j < (config.destinationRegions.getD []).length)
    (i : Nat) (hi : i < (config.destinationRegions.getD []).length)
    (hmem : i ∈ env.schedule) :
    reportLookup (ImageCloner.cloneImage config env).finalReport
        ((config.destinationRegions.getD []).get ⟨i, hi⟩) =
      some (workerOutcomeEntry (env.workerResult i)) ∧
    ((∃ id, env.workerResult i = .ok id ∧
        workerOutcomeEntry (env.workerResult i) =
          { success := true, imageId := some id, error := none }) ∨
     (∃ e, env.workerResult i = .error e ∧
        workerOutcomeEntry (env.workerResult i) =
          { success := false, imageId := none, error := some e })) := by
  constructor
  · have hfr : (ImageCloner.cloneImage config env).finalReport =
        (runRegionsStep (config.destinationRegions.getD []) env.workerResult env.schedule).report := by
      unfold ImageCloner.cloneImage
      simp only [hv, hsi, hsp]
    rw [hfr, runRegionsStep]
    apply foldl_processEvent_lookup_done _ _ hnd _ _ i hi hnds hlt hmem
    have hget : (config.destinationRegions.getD []).get ⟨i, hi⟩ ∈
        (config.destinationRegions.getD []) := List.get_mem _ _ hi
    simp [reportLookup_initialReport, hget]
  · cases hw : env.workerResult i with
    | ok id => exact Or.inl ⟨id, rfl, by simp [workerOutcomeEntry]⟩
    | error e => exact Or.inr ⟨e, rfl, by simp [workerOutcomeEntry]⟩

/-- Destination regions for the claim C9 witness run. -/
def c9Config : Config :=
  { sourceImageId := some "ami-1", sourceRegion := some "us-east-1",
    destinationRegions := some ["eu-west-1", "us-west-2"],
    progressCheckIntervalInSeconds := some 30 }

/-- Environment for the claim C9 witness run: worker 0 succeeds, worker 1
fails, both complete. -/
def c9Env : Env :=
  { describeSourceImage := .ok ⟨"ami-1", "name", "desc", "available", []⟩,
    describeSourcePermissions := .ok [],
    workerResult := fun i => if i = 0 then .ok "ami-new" else .error (.message "tag failed"),
    schedule := [0, 1] }

/-- Witness for claim C9 at the successful worker of a concrete run. -/
theorem c9_witness :
    reportLookup (ImageCloner.cloneImage c9Config c9Env).finalReport
        ((c9Config.destinationRegions.getD []).get ⟨0, by decide⟩) =
      some (workerOutcomeEntry (c9Env.workerResult 0)) ∧
    ((∃ id, c9Env.workerResult 0 = .ok id ∧
        workerOutcomeEntry (c9Env.workerResult 0) =
          { success := true, imageId := some id, error := none }) ∨
     (∃ e, c9Env.workerResult 0 = .error e ∧
        workerOutcomeEntry (c9Env.workerResult 0) =
          { success := false, imageId := none, error := some e })) :=
  c9_outcome_exclusive c9Config c9Env ⟨"ami-1", "name", "desc", "available", []⟩ []
    (by decide) rfl rfl (by decide) (by decide)
    (by intro j hj; fin_cases hj <;> decide) 0 (by decide) (by decide)

-- --------------------------------------------------------------------------
-- Claim C8.
-- --------------------------------------------------------------------------

/-- Claim C8: when configuration validation returns any violation,
`cloneImage` stops at once: the completion callback receives one error
carrying every violation together with the placeholder report, no remote
call of any kind is issued, no region worker is launched, and every report
entry is the "Cloning not attempted" placeholder. -/
theorem c8_validation_failure (config : Config) (env : Env)
    (h : ConfigValidator.validate config ≠ []) :
    ImageCloner.cloneImage config env =
      { callback := some ⟨some (JsError.validationErrors (ConfigValidator.validate config)),
          initialReport (config.destinationRegions.getD []), 0⟩,
        finalReport := initialReport (config.destinationRegions.getD []),
        remoteCalls := [],
        workersStarted := false,
        stepCallbackCount := 0,
        finalConfig := config } ∧
    ∀ p ∈ (ImageCloner.cloneImage config env).finalReport, p.2 = placeholderOutcome := by
  have hrun : ImageCloner.cloneImage config env =
      { callback := some ⟨some (JsError.validationErrors (ConfigValidator.validate config)),
          initialReport (config.destinationRegions.getD []), 0⟩,
        finalReport := initialReport (config.destinationRegions.getD []),
        remoteCalls := [],
        workersStarted := false,
        stepCallbackCount := 0,
        finalConfig := config } := by
    rcases List.exists_cons_of_ne_nil h with ⟨a, as, hv⟩
    unfold ImageCloner.cloneImage
    simp only [hv]
  refine ⟨hrun, ?_⟩
  rw [hrun]
  intro p hp
  rcases List.mem_map.mp hp with ⟨r, -, rfl⟩
  rfl

/-- Witness for claim C8 at an empty configuration (every required property
missing). -/
theorem c8_witness :
    ImageCloner.cloneImage {} ⟨.ok ⟨"i", "n", "d", "available", []⟩, .ok [],
        fun _ => .ok "x", []⟩ =
      { callback := some ⟨some (JsError.validationErrors (ConfigValidator.validate {})),
          initialReport [], 0⟩,
        finalReport := initialReport [],
        remoteCalls := [],
        workersStarted := false,
        stepCallbackCount := 0,
        finalConfig := {} } :=
  (c8_validation_failure {} ⟨.ok ⟨"i", "n", "d", "available", []⟩, .ok [],
      fun _ => .ok "x", []⟩ (by decide)).1

end CloneAmi
